import Mathlib

/-!
Shallow embedding of the x-crm-mcp worker (src/main.ts): the per-user
contact store held in the CrmDurableObject's SQLite database, the
follow-sync procedure, and the store operations (getFollows,
updateContact, updateBulk, removeTag) together with the /sync rate-limit
gate and the /contact/ HTTP handler's parameter passing.

Strings and integers are modelled directly; SQL NULL is `Option.none`;
JavaScript `undefined` for an optional parameter is the outer `none` of
an `Option (Option String)`.  Times are integer milliseconds since the
epoch (the code compares `Date` values, which compare by millisecond
value).  The follows table is a list of rows in rowid (insertion)
order.
-/

namespace XCrm

/-- ASCII lower-casing of one character, as SQLite's LIKE folds case
(ASCII only). -/
def asciiLower (c : Char) : Char :=
  if 'A' ≤ c ∧ c ≤ 'Z' then Char.ofNat (c.toNat + 32) else c

/-- ASCII lower-casing of a string; models `toLowerCase()` on the ASCII
tag strings the code handles. -/
def lowerStr (s : String) : String := ⟨s.toList.map asciiLower⟩

/-- JavaScript `str.split(",")` on character lists: every comma is a
separator, the empty string splits to one empty group. -/
def splitOnComma : List Char → List (List Char)
  | [] => [[]]
  | c :: cs =>
    let rest := splitOnComma cs
    if c = ',' then [] :: rest
    else
      match rest with
      | [] => [[c]]
      | g :: gs => (c :: g) :: gs

/-- JavaScript `str.split(",")`. -/
def jsSplitComma (s : String) : List String :=
  (splitOnComma s.toList).map (fun cs => ⟨cs⟩)

/-- JavaScript `str.trim()` (ASCII whitespace). -/
def jsTrim (s : String) : String :=
  ⟨((s.toList.dropWhile Char.isWhitespace).reverse.dropWhile Char.isWhitespace).reverse⟩

/-- JavaScript `arr.join(", ")`. -/
def joinCommaSpace : List String → String
  | [] => ""
  | [t] => t
  | t :: rest => t ++ ", " ++ joinCommaSpace rest

/-- SQLite LIKE matching on character lists: `%` matches any sequence,
`_` any single character, other characters match ASCII
case-insensitively.  Fuel-based structural recursion (every call
shortens pattern or subject, so `p.length + s.length + 1` fuel always
suffices); kept structural so that it evaluates by `decide`. -/
def likeMatchFuel : Nat → List Char → List Char → Bool
  | 0, _, _ => false
  | _ + 1, [], s => s.isEmpty
  | fuel + 1, q :: ps, s =>
    if q = '%' then
      likeMatchFuel fuel ps s ||
        (match s with
         | [] => false
         | _ :: s2 => likeMatchFuel fuel (q :: ps) s2)
    else
      match s with
      | [] => false
      | c :: s2 => (q == '_' || asciiLower q == asciiLower c) && likeMatchFuel fuel ps s2

/-- LIKE matching with sufficient fuel. -/
def likeMatch (p : List Char) (s : List Char) : Bool :=
  likeMatchFuel (p.length + s.length + 1) p s

/-- Models `col LIKE pat` where the column may be NULL (NULL never matches). -/
def sqlLike (col : Option String) (pat : String) : Bool :=
  match col with
  | none => false
  | some t => likeMatch pat.toList t.toList

/-- Tests whether `sub` occurs in `s` as a literal substring. -/
def substrB (sub s : String) : Bool :=
  (s.toList.tails).any (fun t => sub.toList.isPrefixOf t)

/-- JavaScript `v || null` on a nullable string: `null` and the empty
string (both falsy) give `null`; any other string gives itself. -/
def jsOr (v : Option String) : Option String :=
  match v with
  | none => none
  | some s => if s = "" then none else some s

/-- One row of the `follows` table (src/main.ts initSchema). -/
structure Row where
  user_id : String
  username : String
  name : Option String
  profile_image_url : Option String
  description : Option String
  followers_count : Option Int
  following_count : Option Int
  verified_type : Option String
  is_blue_verified : Option Int
  location : Option String
  created_at : Option String
  note : Option String
  tags : Option String
  synced_at : String
deriving DecidableEq, Repr

/-- One account record of an upstream `followings` page
(fields read by syncFollows from the twitterapi.io response). -/
structure Following where
  id : String
  userName : String
  name : Option String
  profile_image_url_https : Option String
  description : Option String
  followers_count : Option Int
  following_count : Option Int
  verifiedType : Option String
  verified : Bool
  location : Option String
  createdAt : Option String
deriving DecidableEq, Repr

/-- One upstream page body: `followings`, `has_next_page`,
`next_cursor` (`none` = null/absent, `some ""` is falsy in JS). -/
structure PageData where
  followings : List Following
  has_next_page : Bool
  next_cursor : Option String
deriving DecidableEq, Repr

/-- The durable object's SQLite state: the `follows` table in rowid
order and the `sync_log` timestamps in insertion order. -/
structure Store where
  follows : List Row
  sync_log : List Int
deriving DecidableEq, Repr

/-- Whether `next_cursor` is truthy in JS: present and not the empty string. -/
def cursorTruthy (c : Option String) : Bool :=
  match c with
  | none => false
  | some s => s ≠ ""

/-- getLastSyncTime: `SELECT last_sync_at FROM sync_log ORDER BY
last_sync_at DESC LIMIT 1`.  CURRENT_TIMESTAMP text sorts
chronologically, so this is the maximum timestamp. -/
def getLastSyncTime (log : List Int) : Option Int :=
  log.foldl (fun acc t =>
    match acc with
    | none => some t
    | some m => some (max m t)) none

/-- The in-memory snapshot syncFollows takes before clearing the table:
`SELECT username, note, tags FROM follows WHERE note IS NOT NULL OR
tags IS NOT NULL`, loaded into a JS Map keyed by username (a later row
with the same username overwrites an earlier one, hence the
`reverse.find?`). -/
def existingLookup (F : List Row) (u : String) : Option (Option String × Option String) :=
  ((F.filter (fun r => r.note.isSome || r.tags.isSome)).reverse.find?
      (fun r => r.username == u)).map (fun r => (r.note, r.tags))

/-- The row syncFollows inserts for one fetched account: upstream
fields mirrored, `is_blue_verified` from the JS conditional
`follow.verified ? 1 : 0`, and note/tags carried from the snapshot via
`existing?.note || null` / `existing?.tags || null`. -/
def rowOfFollowing (lookup : String → Option (Option String × Option String))
    (syncedAt : String) (f : Following) : Row :=
  { user_id := f.id
    username := f.userName
    name := f.name
    profile_image_url := f.profile_image_url_https
    description := f.description
    followers_count := f.followers_count
    following_count := f.following_count
    verified_type := f.verifiedType
    is_blue_verified := some (if f.verified then 1 else 0)
    location := f.location
    created_at := f.createdAt
    note := jsOr ((lookup f.userName).map Prod.fst |>.getD none)
    tags := jsOr ((lookup f.userName).map Prod.snd |>.getD none)
    synced_at := syncedAt }

/-- Models `INSERT OR REPLACE` keyed on the `user_id` primary key: a
conflicting row is deleted and the new row appended (new rowid). -/
def insertOrReplace (r : Row) (F : List Row) : List Row :=
  (F.filter (fun x => x.user_id ≠ r.user_id)) ++ [r]

/-- Insert every account of one page, in order. -/
def insertPage (lookup : String → Option (Option String × Option String))
    (syncedAt : String) (fs : List Following) (F : List Row) : List Row :=
  fs.foldl (fun acc f => insertOrReplace (rowOfFollowing lookup syncedAt f) acc) F

/-- The do-while condition of syncFollows after processing page `d`:
`(follows.length >= 200 || data.has_next_page) && cursor`. -/
def continuesAfterPage (d : PageData) : Bool :=
  (decide (d.followings.length ≥ 200) || d.has_next_page) && cursorTruthy d.next_cursor

/-- The syncFollows fetch loop.  `resps` is the sequence of HTTP
responses the upstream source returns for the successive page fetches:
`Except.error status` is a non-ok response, `Except.ok d` a parsed
page.  The state is returned alongside the outcome, so that writes
committed before a thrown error stay visible.  An exhausted response
list models a network failure on the next fetch. -/
def syncLoop (lookup : String → Option (Option String × Option String))
    (syncedAt : String) :
    List (Except Nat PageData) → Store → Nat → Nat → Store × Except String (Nat × Nat)
  | [], s, _, _ => (s, Except.error ("network failure"))
  | Except.error status :: _, s, _, _ =>
      (s, Except.error ("Failed to fetch follows: " ++ toString status))
  | Except.ok d :: rest, s, totalFollows, pageCount =>
      let s2 : Store := { s with follows := insertPage lookup syncedAt d.followings s.follows }
      let total2 := totalFollows + d.followings.length
      if continuesAfterPage d then
        syncLoop lookup syncedAt rest s2 total2 (pageCount + 1)
      else
        (s2, Except.ok (total2, pageCount + 1))

/-- CrmDurableObject.syncFollows: record a SyncEvent (updateSyncTime),
snapshot note/tags keyed by username, delete all follows, then run the
paginated fetch loop.  `now` is the SyncEvent timestamp, `syncedAt`
the CURRENT_TIMESTAMP text stamped on inserted rows.  Returns the
final state and either `(synced, pages)` or the thrown error. -/
def syncFollows (now : Int) (syncedAt : String)
    (resps : List (Except Nat PageData)) (s : Store) :
    Store × Except String (Nat × Nat) :=
  let s1 : Store := { s with sync_log := s.sync_log ++ [now] }
  let lookup := existingLookup s1.follows
  let s2 : Store := { s1 with follows := [] }
  syncLoop lookup syncedAt resps s2 0 0

/-- The accounts the loop actually consumes from a response sequence:
pages are taken while the loop's continue-condition holds, and a
non-ok response (or an exhausted list) contributes nothing. -/
def consumedFollowings : List (Except Nat PageData) → List Following
  | [] => []
  | Except.error _ :: _ => []
  | Except.ok d :: rest =>
      d.followings ++ (if continuesAfterPage d then consumedFollowings rest else [])

/-- The `ORDER BY followers_count DESC` comparator: larger counts first,
NULL counts last (SQLite sorts NULL first ascending, hence last
descending). -/
def followersDescLe (a b : Row) : Bool :=
  match a.followers_count, b.followers_count with
  | some x, some y => decide (y ≤ x)
  | some _, none => true
  | none, some _ => false
  | none, none => true

/-- Stable insertion into a list sorted by `followersDescLe`. -/
def insertSortedDesc (r : Row) : List Row → List Row
  | [] => [r]
  | x :: xs => if followersDescLe x r then x :: insertSortedDesc r xs else r :: x :: xs

/-- Stable sort by descending followers_count. -/
def sortByFollowersDesc (F : List Row) : List Row :=
  F.foldr insertSortedDesc []

/-- CrmDurableObject.getFollows: optional `tags LIKE '%tag%'` filter
(the tag is interpolated into the LIKE pattern unescaped; a falsy tag,
absent or empty, means no filter), then ORDER BY followers_count
DESC. -/
def getFollows (tag : Option String) (F : List Row) : List Row :=
  let filtered :=
    match tag with
    | some t => if t ≠ "" then F.filter (fun r => sqlLike r.tags ("%" ++ t ++ "%")) else F
    | none => F
  sortByFollowersDesc filtered

/-- A `SET` clause pushed by updateContact / updateBulk. -/
inductive FieldUpdate where
  | note (v : Option String)
  | tags (v : Option String)
deriving DecidableEq, Repr

/-- Apply the pushed SET clauses to one row. -/
def applyUpdates (us : List FieldUpdate) (r : Row) : Row :=
  us.foldl (fun acc u =>
    match u with
    | FieldUpdate.note v => { acc with note := v }
    | FieldUpdate.tags v => { acc with tags := v }) r

/-- Result shape of updateContact: `{updated}` or
`{updated:false, error}`. -/
structure UpdateResult where
  updated : Bool
  error : Option String
deriving DecidableEq, Repr

/-- CrmDurableObject.updateContact.  The outer `Option` of `note` /
`tags` is JS `undefined` (parameter not supplied, checked by
`!== undefined`); the inner one is SQL NULL.  `UPDATE ... WHERE
username = ?` touches every row with that username; `rowsWritten > 0`
becomes `updated`. -/
def updateContact (username : String) (note tags : Option (Option String))
    (F : List Row) : List Row × UpdateResult :=
  let updates :=
    (match note with | some v => [FieldUpdate.note v] | none => []) ++
    (match tags with | some v => [FieldUpdate.tags v] | none => [])
  if updates.isEmpty then
    (F, ⟨false, some ("No updates provided")⟩)
  else
    let F2 := F.map (fun r => if r.username == username then applyUpdates updates r else r)
    (F2, ⟨decide (0 < F.countP (fun r => r.username == username)), none⟩)

/-- One item of the bulk-update payload: `tags` required, `note`
optional. -/
structure BulkItem where
  username : String
  tags : String
  note : Option String
deriving DecidableEq, Repr

/-- Result of updateBulk: `{success, errors, errorDetails}`. -/
structure BulkResult where
  success : Nat
  errors : Nat
  errorDetails : List String
deriving DecidableEq, Repr

/-- One item of updateBulk: push `tags = ?` and, when note is
supplied, `note = ?`, then run `UPDATE ... WHERE username = ?`; a
write counts as a success, no match adds an error entry naming the
username. -/
def updateBulkStep (acc : List Row × BulkResult) (item : BulkItem) :
    List Row × BulkResult :=
  let updates := [FieldUpdate.tags (some item.tags)] ++
    (match item.note with | some n => [FieldUpdate.note (some n)] | none => [])
  let matched := acc.1.countP (fun r => r.username == item.username)
  let F2 := acc.1.map (fun r =>
    if r.username == item.username then applyUpdates updates r else r)
  if 0 < matched then
    (F2, ⟨acc.2.success + 1, acc.2.errors, acc.2.errorDetails⟩)
  else
    (F2, ⟨acc.2.success, acc.2.errors + 1,
          acc.2.errorDetails ++ ["Username not found: " ++ item.username]⟩)

/-- CrmDurableObject.updateBulk: the items applied independently in
order; one item's miss does not abort the rest. -/
def updateBulk (items : List BulkItem) (F : List Row) : List Row × BulkResult :=
  items.foldl updateBulkStep (F, ⟨0, 0, []⟩)

/-- The tag rewrite removeTag applies to one selected row's tags:
split on comma, trim each token, drop tokens equal to the removed tag
case-insensitively, rejoin with comma-space, NULL when none remain. -/
def removeTagFromTags (tagToRemove : String) (tags : String) : Option String :=
  let currentTags := ((jsSplitComma tags).map jsTrim).filter
    (fun t => lowerStr t ≠ lowerStr tagToRemove)
  if 0 < currentTags.length then some (joinCommaSpace currentTags) else none

/-- One iteration of removeTag's loop over the selected snapshot rows:
the truthiness guard `if (follow.tags)`, the rewrite, the `UPDATE ...
SET tags = ? WHERE username = ?`, and the rowsWritten check. -/
def removeTagStep (tagToRemove : String) (acc : List Row × Nat) (follow : Row) :
    List Row × Nat :=
  match follow.tags with
  | none => acc
  | some t =>
    let newTags := removeTagFromTags tagToRemove t
    let written := 0 < acc.1.countP (fun r => r.username == follow.username)
    let F2 := acc.1.map (fun r =>
      if r.username == follow.username then { r with tags := newTags } else r)
    (F2, if written then acc.2 + 1 else acc.2)

/-- removeTag's row selection: `tags IS NOT NULL AND tags != '' AND
tags LIKE '%tag%'` (the tag interpolated unescaped). -/
def removeTagSelected (tagToRemove : String) (r : Row) : Bool :=
  match r.tags with
  | none => false
  | some t => t ≠ "" && sqlLike (some t) ("%" ++ tagToRemove ++ "%")

/-- CrmDurableObject.removeTag: select the snapshot rows with
`removeTagSelected`, then apply `removeTagStep` to each; returns the
new table and the `removed` count. -/
def removeTag (tagToRemove : String) (F : List Row) : List Row × Nat :=
  let followsWithTag := F.filter (removeTagSelected tagToRemove)
  followsWithTag.foldl (removeTagStep tagToRemove) (F, 0)

/-- The `/contact/{username}` POST handler's call into updateContact:
`url.searchParams.get` yields `null` (not `undefined`) for an absent
query parameter, so both fields are always supplied. -/
def contactEndpoint (username : String) (noteParam tagsParam : Option String)
    (F : List Row) : List Row × UpdateResult :=
  updateContact username (some noteParam) (some tagsParam) F

/-- Milliseconds per hour. -/
def msPerHour : Int := 60 * 60 * 1000

/-- Milliseconds per 24 hours. -/
def msPerDay : Int := 24 * 60 * 60 * 1000

/-- The /sync handler's eligibility test: no previous sync, last sync
strictly older than 24 hours, or the hardcoded privileged username. -/
def canSync (log : List Int) (now : Int) (username : String) : Bool :=
  match getLastSyncTime log with
  | none => true
  | some lastSync => decide (lastSync < now - msPerDay) || username == "janwilmake"

/-- Computes `Math.ceil((lastSync + 24h - now) / 1h)` as done in the
rejection branch, where the numerator is never negative (the branch is
only reached when `lastSync ≥ now - 24h`). -/
def hoursUntilNextSync (lastSync now : Int) : Nat :=
  ((lastSync + msPerDay - now).toNat + (3600000 - 1)) / 3600000

/-- Outcome of the /sync handler's rate-limit gate. -/
inductive SyncGateDecision where
  | allowed
  | limited (hoursRemaining : Nat) (lastSync : Int)
deriving DecidableEq, Repr

/-- The /sync handler's rate-limit gate (src/main.ts, /sync route):
runs the sync when `canSync`, otherwise responds 429 with the
whole-hours-remaining figure. -/
def syncGate (log : List Int) (now : Int) (username : String) : SyncGateDecision :=
  if canSync log now username then SyncGateDecision.allowed
  else
    match getLastSyncTime log with
    | some lastSync => SyncGateDecision.limited (hoursUntilNextSync lastSync now) lastSync
    | none => SyncGateDecision.allowed

/-- The page-advance condition as the specification sentence reads:
(more pages available AND a cursor) OR at least 200 rows on the page.
Kept separate from `continuesAfterPage` (the source's condition) to
compare the two. -/
def claimPageCond (d : PageData) : Bool :=
  (d.has_next_page && cursorTruthy d.next_cursor) || decide (d.followings.length ≥ 200)

/-- A row with only the fields the claims vary; the mirrored profile
columns are fixed throughout. -/
def mkRow (uid uname : String) (note tags : Option String) : Row :=
  ⟨uid, uname, none, none, none, some 5, none, none, some 0, none, none, note, tags, ""⟩

/-- An upstream account record with fixed profile fields. -/
def mkFollowing (i u : String) : Following :=
  ⟨i, u, none, none, none, some 5, none, none, false, none, none⟩

/-- Forget the user-authored columns, keeping everything the mutation
operations must not touch. -/
def stripAnn (r : Row) : Row :=
  { r with note := none, tags := none }

/- ### Shared lemmas -/

theorem countP_pos_eq_any {α : Type} (p : α → Bool) (l : List α) :
    decide (0 < l.countP p) = l.any p := by
  induction l with
  | nil => rfl
  | cons x xs ih =>
    by_cases h : p x
    · simp [List.countP_cons, List.any_cons, h]
    · simp only [List.countP_cons, List.any_cons, h]
      simpa using ih

theorem applyUpdates_strip (us : List FieldUpdate) (r : Row) :
    stripAnn (applyUpdates us r) = stripAnn r := by
  induction us generalizing r with
  | nil => rfl
  | cons u us ih =>
    cases u with
    | note v => simpa [applyUpdates, List.foldl_cons] using ih { r with note := v }
    | tags v => simpa [applyUpdates, List.foldl_cons] using ih { r with tags := v }

theorem map_strip_of_pointwise (f : Row → Row) (F : List Row)
    (h : ∀ r, stripAnn (f r) = stripAnn r) :
    (F.map f).map stripAnn = F.map stripAnn := by
  induction F with
  | nil => rfl
  | cons x xs ih => simp [List.map_cons, h, ih]

theorem updateContact_none_none (u : String) (F : List Row) :
    updateContact u none none F = (F, ⟨false, some ("No updates provided")⟩) := rfl

theorem updateContact_supplied (u : String) (n t : Option (Option String))
    (F : List Row) (h : n.isSome ∨ t.isSome) :
    updateContact u n t F =
      (F.map (fun r => if r.username == u
          then { r with note := n.getD r.note, tags := t.getD r.tags } else r),
       ⟨F.any (fun r => r.username == u), none⟩) := by
  cases n with
  | some v =>
    cases t with
    | some w =>
      simp only [updateContact, List.append_eq, Option.getD_some]
      rw [countP_pos_eq_any]
      rfl
    | none =>
      simp only [updateContact, List.append_eq, Option.getD_some, Option.getD_none]
      rw [countP_pos_eq_any]
      rfl
  | none =>
    cases t with
    | some w =>
      simp only [updateContact, List.append_eq, Option.getD_some, Option.getD_none]
      rw [countP_pos_eq_any]
      rfl
    | none => simp at h

theorem insertPage_eq (lookup : String → Option (Option String × Option String))
    (sa : String) (fs : List Following) (F : List Row)
    (hnd : (fs.map Following.id).Nodup)
    (hdisj : ∀ r ∈ F, r.user_id ∉ fs.map Following.id) :
    insertPage lookup sa fs F = F ++ fs.map (rowOfFollowing lookup sa) := by
  induction fs generalizing F with
  | nil => simp [insertPage]
  | cons f fs ih =>
    simp only [List.map_cons, List.nodup_cons] at hnd
    have hins : insertOrReplace (rowOfFollowing lookup sa f) F
        = F ++ [rowOfFollowing lookup sa f] := by
      unfold insertOrReplace
      congr 1
      apply List.filter_eq_self.mpr
      intro r hr
      have : r.user_id ∉ f.id :: fs.map Following.id := by
        simpa using hdisj r hr
      simp only [List.mem_cons, not_or] at this
      simpa [rowOfFollowing] using this.1
    have step : insertPage lookup sa (f :: fs) F
        = insertPage lookup sa fs (F ++ [rowOfFollowing lookup sa f]) := by
      simp [insertPage, List.foldl_cons, hins]
    rw [step, ih (F ++ [rowOfFollowing lookup sa f]) hnd.2]
    · simp [List.append_assoc]
    · intro r hr
      rcases List.mem_append.mp hr with h1 | h1
      · have := hdisj r h1
        simp only [List.map_cons, List.mem_cons, not_or] at this
        exact this.2
      · have : r = rowOfFollowing lookup sa f := by simpa using h1
        subst this
        simpa [rowOfFollowing] using hnd.1

theorem syncLoop_state (lookup : String → Option (Option String × Option String))
    (sa : String) :
    ∀ (resps : List (Except Nat PageData)) (F : List Row) (L : List Int)
      (total pc : Nat),
    ((consumedFollowings resps).map Following.id).Nodup →
    (∀ r ∈ F, r.user_id ∉ (consumedFollowings resps).map Following.id) →
    (syncLoop lookup sa resps ⟨F, L⟩ total pc).1 =
      ⟨F ++ (consumedFollowings resps).map (rowOfFollowing lookup sa), L⟩ := by
  intro resps
  induction resps with
  | nil => intro F L total pc _ _; simp [syncLoop, consumedFollowings]
  | cons hd rest ih =>
    intro F L total pc hnd hdisj
    cases hd with
    | error st => simp [syncLoop, consumedFollowings]
    | ok d =>
      cases hc : continuesAfterPage d with
      | false =>
        have hcons : consumedFollowings (Except.ok d :: rest) = d.followings := by
          simp [consumedFollowings, hc]
        rw [hcons] at hnd hdisj
        have hins := insertPage_eq lookup sa d.followings F hnd hdisj
        rw [hcons]
        simp only [syncLoop, hc, Bool.false_eq_true, if_false]
        simpa using hins
      | true =>
        have hcons : consumedFollowings (Except.ok d :: rest)
            = d.followings ++ consumedFollowings rest := by
          simp [consumedFollowings, hc]
        rw [hcons] at hnd hdisj
        rw [List.map_append, List.nodup_append] at hnd
        obtain ⟨hd1, hd2, hdab⟩ := hnd
        have hdisj1 : ∀ r ∈ F, r.user_id ∉ d.followings.map Following.id := by
          intro r hr h1
          exact hdisj r hr (by
            rw [List.map_append]
            exact List.mem_append.mpr (Or.inl h1))
        have hins := insertPage_eq lookup sa d.followings F hd1 hdisj1
        have hdisj2 : ∀ r ∈ F ++ d.followings.map (rowOfFollowing lookup sa),
            r.user_id ∉ (consumedFollowings rest).map Following.id := by
          intro r hr h1
          rcases List.mem_append.mp hr with h2 | h2
          · exact hdisj r h2 (by
              rw [List.map_append]
              exact List.mem_append.mpr (Or.inr h1))
          · rcases List.mem_map.mp h2 with ⟨f, hf, hfr⟩
            have hid : f.id ∈ List.map Following.id d.followings :=
              List.mem_map.mpr ⟨f, hf, rfl⟩
            have : r.user_id = f.id := by rw [← hfr]; rfl
            rw [this] at h1
            exact hdab hid h1
        have hrec := ih (F ++ d.followings.map (rowOfFollowing lookup sa)) L
          (total + d.followings.length) (pc + 1) hd2 hdisj2
        rw [hcons]
        simp only [syncLoop, hc, if_true]
        rw [hins, hrec]
        simp [List.append_assoc]

theorem syncFollows_state (now : Int) (sa : String)
    (resps : List (Except Nat PageData)) (s : Store)
    (hnd : ((consumedFollowings resps).map Following.id).Nodup) :
    (syncFollows now sa resps s).1 =
      ⟨(consumedFollowings resps).map (rowOfFollowing (existingLookup s.follows) sa),
       s.sync_log ++ [now]⟩ := by
  unfold syncFollows
  have := syncLoop_state (existingLookup s.follows) sa resps [] (s.sync_log ++ [now])
    0 0 hnd (by intro r hr; simp at hr)
  simpa using this

theorem consumed_of_continuing (st : Nat) (rest : List (Except Nat PageData)) :
    ∀ ds : List PageData, (∀ d ∈ ds, continuesAfterPage d = true) →
    consumedFollowings (ds.map Except.ok ++ Except.error st :: rest)
      = (ds.map PageData.followings).flatten := by
  intro ds
  induction ds with
  | nil => intro _; simp [consumedFollowings]
  | cons d ds ih =>
    intro h
    have hd : continuesAfterPage d = true := h d (List.mem_cons_self d ds)
    have hrest := ih (fun x hx => h x (List.mem_cons_of_mem d hx))
    simp [consumedFollowings, hd, hrest]

theorem syncLoop_error_result (lookup : String → Option (Option String × Option String))
    (sa : String) (st : Nat) (rest : List (Except Nat PageData)) :
    ∀ (ds : List PageData) (s : Store) (total pc : Nat),
    (∀ d ∈ ds, continuesAfterPage d = true) →
    (syncLoop lookup sa (ds.map Except.ok ++ Except.error st :: rest) s total pc).2
      = Except.error ("Failed to fetch follows: " ++ toString st) := by
  intro ds
  induction ds with
  | nil => intro s total pc _; simp [syncLoop]
  | cons d ds ih =>
    intro s total pc h
    have hd : continuesAfterPage d = true := h d (List.mem_cons_self d ds)
    simp only [List.map_cons, List.cons_append, syncLoop, hd, if_true]
    exact ih _ _ _ (fun x hx => h x (List.mem_cons_of_mem d hx))

theorem updateBulk_strip (items : List BulkItem) (F : List Row) :
    ((updateBulk items F).1).map stripAnn = F.map stripAnn := by
  have main : ∀ (its : List BulkItem) (acc : List Row × BulkResult),
      ((its.foldl updateBulkStep acc).1).map stripAnn = acc.1.map stripAnn := by
    intro its
    induction its with
    | nil => intro acc; rfl
    | cons it its ih =>
      intro acc
      rw [List.foldl_cons, ih]
      have hstep : ((updateBulkStep acc it).1).map stripAnn = acc.1.map stripAnn := by
        unfold updateBulkStep
        by_cases h : 0 < acc.1.countP (fun r => r.username == it.username)
        · simp only [if_pos h]
          exact map_strip_of_pointwise _ acc.1 (fun r => by
            by_cases hr : r.username == it.username
            · simp [hr, applyUpdates_strip]
            · simp [hr])
        · simp only [if_neg h]
          exact map_strip_of_pointwise _ acc.1 (fun r => by
            by_cases hr : r.username == it.username
            · simp [hr, applyUpdates_strip]
            · simp [hr])
      exact hstep
  exact main items (F, ⟨0, 0, []⟩)

theorem removeTag_strip (t : String) (F : List Row) :
    ((removeTag t F).1).map stripAnn = F.map stripAnn := by
  unfold removeTag
  have main : ∀ (sel : List Row) (acc : List Row × Nat),
      ((sel.foldl (removeTagStep t) acc).1).map stripAnn = acc.1.map stripAnn := by
    intro sel
    induction sel with
    | nil => intro acc; rfl
    | cons x xs ih =>
      intro acc
      rw [List.foldl_cons, ih]
      unfold removeTagStep
      cases x.tags with
      | none => rfl
      | some v =>
        simp only []
        exact map_strip_of_pointwise _ acc.1 (fun r => by
          by_cases hr : r.username == x.username
          · simp [hr, stripAnn]
          · simp [hr])
  exact main _ (F, 0)

theorem syncLoop_log (lookup : String → Option (Option String × Option String))
    (sa : String) :
    ∀ (resps : List (Except Nat PageData)) (s : Store) (total pc : Nat),
    (syncLoop lookup sa resps s total pc).1.sync_log = s.sync_log := by
  intro resps
  induction resps with
  | nil => intro s total pc; rfl
  | cons hd rest ih =>
    intro s total pc
    cases hd with
    | error st => rfl
    | ok d =>
      cases hc : continuesAfterPage d with
      | true =>
        simp only [syncLoop, hc, if_true]
        exact ih _ _ _
      | false =>
        simp only [syncLoop, hc, Bool.false_eq_true, if_false]

theorem mem_username_unique :
    ∀ {F : List Row}, (F.map Row.username).Nodup →
    ∀ {x y : Row}, x ∈ F → y ∈ F → x.username = y.username → x = y := by
  intro F
  induction F with
  | nil => intro _ x y hx; simp at hx
  | cons a l ih =>
    intro hU x y hx hy hxy
    rw [List.map_cons, List.nodup_cons] at hU
    rcases List.mem_cons.mp hx with hxa | hxl
    · rcases List.mem_cons.mp hy with hya | hyl
      · rw [hxa, hya]
      · exfalso
        apply hU.1
        rw [← hxa, hxy]
        exact List.mem_map.mpr ⟨y, hyl, rfl⟩
    · rcases List.mem_cons.mp hy with hya | hyl
      · exfalso
        apply hU.1
        rw [← hya, ← hxy]
        exact List.mem_map.mpr ⟨x, hxl, rfl⟩
      · exact ih hU.2 hxl hyl hxy

theorem find?_username_self :
    ∀ {todo : List Row}, (todo.map Row.username).Nodup →
    ∀ {r : Row}, r ∈ todo →
    todo.find? (fun x => x.username == r.username) = some r := by
  intro todo
  induction todo with
  | nil => intro _ r hr; simp at hr
  | cons y ys ih =>
    intro hU r hr
    rw [List.map_cons, List.nodup_cons] at hU
    by_cases hy : y.username = r.username
    · have : r = y := by
        rcases List.mem_cons.mp hr with h | h
        · exact h
        · exfalso
          apply hU.1
          rw [hy]
          exact List.mem_map.mpr ⟨r, h, rfl⟩
      rw [List.find?_cons_of_pos]
      · rw [this]
      · simp [hy]
    · have hrys : r ∈ ys := by
        rcases List.mem_cons.mp hr with h | h
        · exact absurd (by rw [h]) hy
        · exact h
      rw [List.find?_cons_of_neg]
      · exact ih hU.2 hrys
      · simp [hy]

theorem countP_username_map (G : List Row) (u : String) (f : Row → Row)
    (hf : ∀ r, (f r).username = r.username) :
    (G.map f).countP (fun r => r.username == u) = G.countP (fun r => r.username == u) := by
  induction G with
  | nil => rfl
  | cons a l ih =>
    simp only [List.map_cons, List.countP_cons, hf a, ih]

/-- The removeTag fold on a work list of snapshot rows with pairwise
distinct usernames, all having non-null tags, each present in the
table: every table row sharing a work-list row's username gets that
row's rewritten tags, the rest stay, and the count grows by the length
of the work list. -/
theorem removeTag_foldl_spec (tag : String) :
    ∀ (todo : List Row) (G : List Row) (k : Nat),
    (∀ x ∈ todo, x.tags.isSome) →
    ((todo.map Row.username).Nodup) →
    (∀ x ∈ todo, 0 < G.countP (fun r => r.username == x.username)) →
    todo.foldl (removeTagStep tag) (G, k) =
      (G.map (fun r =>
        match todo.find? (fun x => x.username == r.username) with
        | some x => { r with tags := removeTagFromTags tag (x.tags.getD ("")) }
        | none => r),
       k + todo.length) := by
  intro todo
  induction todo with
  | nil =>
    intro G k _ _ _
    simp
  | cons x todo ih =>
    intro G k htags hU hcov
    obtain ⟨t, ht⟩ := Option.isSome_iff_exists.mp (htags x (List.mem_cons_self x todo))
    rw [List.map_cons, List.nodup_cons] at hU
    have hstep : removeTagStep tag (G, k) x =
        (G.map (fun r => if r.username == x.username
            then { r with tags := removeTagFromTags tag t } else r), k + 1) := by
      unfold removeTagStep
      rw [ht]
      simp only []
      rw [if_pos (hcov x (List.mem_cons_self x todo))]
    rw [List.foldl_cons, hstep,
      ih (G.map (fun r => if r.username == x.username
          then { r with tags := removeTagFromTags tag t } else r)) (k + 1)
        (fun y hy => htags y (List.mem_cons_of_mem x hy)) hU.2
        (fun y hy => by
          rw [countP_username_map G y.username _
            (fun r => by by_cases hr : r.username == x.username <;> simp [hr])]
          exact hcov y (List.mem_cons_of_mem x hy))]
    rw [List.map_map]
    congr 1
    · apply List.map_congr_left
      intro r _
      simp only [Function.comp_apply]
      by_cases hru : r.username == x.username
      · have hrx : r.username = x.username := by simpa using hru
        have hnone : todo.find? (fun y => y.username == r.username) = none := by
          apply List.find?_eq_none.mpr
          intro y hy hyr
          apply hU.1
          have h1 : y.username = r.username := by simpa using hyr
          rw [← hrx, ← h1]
          exact List.mem_map.mpr ⟨y, hy, rfl⟩
        have hsome : (x :: todo).find? (fun y => y.username == r.username) = some x := by
          rw [List.find?_cons_of_pos]
          simp [hrx]
        simp [hru, hnone, hsome, ht]
      · have hrx : x.username ≠ r.username := fun h => by simp [h.symm] at hru
        have hcons : (x :: todo).find? (fun y => y.username == r.username)
            = todo.find? (fun y => y.username == r.username) := by
          rw [List.find?_cons_of_neg]
          simp [hrx]
        simp [hru, hcons]
    · rw [List.length_cons]
      omega

/-- removeTag on a table with pairwise distinct usernames: every
selected row is rewritten in place from its own tags, every other row
is untouched, and the count is the number of selected rows. -/
theorem removeTag_spec_unique (tag : String) (F : List Row)
    (hU : (F.map Row.username).Nodup) :
    removeTag tag F =
      (F.map (fun r => if removeTagSelected tag r
          then { r with tags := removeTagFromTags tag (r.tags.getD ("")) } else r),
       (F.filter (removeTagSelected tag)).length) := by
  have hsubU : ((F.filter (removeTagSelected tag)).map Row.username).Nodup :=
    List.Nodup.sublist (List.Sublist.map Row.username (List.filter_sublist F)) hU
  have htags : ∀ x ∈ F.filter (removeTagSelected tag), x.tags.isSome := by
    intro x hx
    have hsel : removeTagSelected tag x = true := (List.mem_filter.mp hx).2
    cases hxt : x.tags with
    | none => rw [removeTagSelected, hxt] at hsel; simp at hsel
    | some t => rfl
  have hcov : ∀ x ∈ F.filter (removeTagSelected tag),
      0 < F.countP (fun r => r.username == x.username) := by
    intro x hx
    apply List.countP_pos_iff.mpr
    exact ⟨x, (List.mem_filter.mp hx).1, by simp⟩
  unfold removeTag
  rw [removeTag_foldl_spec tag (F.filter (removeTagSelected tag)) F 0 htags hsubU hcov]
  congr 1
  · apply List.map_congr_left
    intro r hr
    by_cases hsel : removeTagSelected tag r
    · have hmem : r ∈ F.filter (removeTagSelected tag) := List.mem_filter.mpr ⟨hr, hsel⟩
      rw [find?_username_self hsubU hmem, if_pos hsel]
    · have hnone : (F.filter (removeTagSelected tag)).find?
          (fun x => x.username == r.username) = none := by
        apply List.find?_eq_none.mpr
        intro y hy hyr
        have hyF : y ∈ F := (List.mem_filter.mp hy).1
        have : y = r := mem_username_unique hU hyF hr (by simpa using hyr)
        rw [this] at hy
        exact hsel (List.mem_filter.mp hy).2
      rw [hnone, if_neg hsel]
  · simp

/- ### Claim theorems -/

/-- C3 (amended): after receiving a page, the sync loop fetches a
further page if and only if (the response indicates more pages are
available AND supplies a truthy pagination cursor) OR (the page
contained at least 200 records AND a truthy cursor was supplied);
otherwise the loop stops and the run returns the total account count
and the page count.  (The claim as frozen omits the cursor requirement
from the 200-records disjunct; see the counterexample.) -/
theorem sync_pagination_condition_amended :
    ∀ (lookup : String → Option (Option String × Option String)) (sa : String)
      (d : PageData) (rest : List (Except Nat PageData)) (s : Store) (total pc : Nat),
    syncLoop lookup sa (Except.ok d :: rest) s total pc =
      if (d.has_next_page && cursorTruthy d.next_cursor)
          || (decide (d.followings.length ≥ 200) && cursorTruthy d.next_cursor) then
        syncLoop lookup sa rest
          { s with follows := insertPage lookup sa d.followings s.follows }
          (total + d.followings.length) (pc + 1)
      else
        ({ s with follows := insertPage lookup sa d.followings s.follows },
         Except.ok (total + d.followings.length, pc + 1)) := by
  intro lookup sa d rest s total pc
  have key : continuesAfterPage d =
      ((d.has_next_page && cursorTruthy d.next_cursor)
        || (decide (d.followings.length ≥ 200) && cursorTruthy d.next_cursor)) := by
    unfold continuesAfterPage
    cases decide (d.followings.length ≥ 200) <;>
      cases d.has_next_page <;>
        cases cursorTruthy d.next_cursor <;> rfl
  simp only [syncLoop]
  rw [key]

set_option maxRecDepth 8000 in
/-- C3 counterexample: a page with exactly 200 records, no more-pages
flag and no cursor.  The claim's condition says a further page is
fetched; the code's condition is false and the run stops after this
single page, returning page count 1. -/
theorem sync_pagination_condition_cex :
    claimPageCond ⟨List.replicate 200 (mkFollowing ("1") ("a")), false, none⟩ = true ∧
    continuesAfterPage ⟨List.replicate 200 (mkFollowing ("1") ("a")), false, none⟩ = false ∧
    (syncFollows 0 ("t")
        [Except.ok ⟨List.replicate 200 (mkFollowing ("1") ("a")), false, none⟩]
        ⟨[], []⟩).2 = Except.ok (200, 1) :=
  ⟨rfl, rfl, by rfl⟩

/-- C4: a sync request runs iff there is no prior SyncEvent, the most
recent SyncEvent is more than 24 hours old, or the requester is the
hardcoded privileged handle; otherwise it is rejected carrying the
number of whole hours until eligibility.  Concretely, a last sync 10
hours old gives 14 hours remaining for a non-privileged user, and one
25 hours old is allowed. -/
theorem sync_rate_limit_gate :
    (∀ (log : List Int) (now : Int) (u : String),
      syncGate log now u = SyncGateDecision.allowed ↔
        (getLastSyncTime log = none ∨
         (∃ t, getLastSyncTime log = some t ∧ t < now - msPerDay) ∨
         u = "janwilmake")) ∧
    (∀ (log : List Int) (now : Int) (u : String) (t : Int),
      getLastSyncTime log = some t → ¬ t < now - msPerDay → u ≠ "janwilmake" →
      syncGate log now u = SyncGateDecision.limited (hoursUntilNextSync t now) t) ∧
    (∀ now : Int, syncGate [now - 10 * msPerHour] now ("alice")
        = SyncGateDecision.limited 14 (now - 10 * msPerHour)) ∧
    (∀ now : Int, syncGate [now - 25 * msPerHour] now ("alice")
        = SyncGateDecision.allowed) := by
  refine ⟨?_, ?_, ?_, ?_⟩
  · intro log now u
    cases hls : getLastSyncTime log with
    | none => simp [syncGate, canSync, hls]
    | some t =>
      by_cases h1 : t < now - msPerDay
      · simp [syncGate, canSync, hls, h1]
      · by_cases h2 : u = "janwilmake"
        · simp [syncGate, canSync, hls, h1, h2]
        · simp [syncGate, canSync, hls, h1, h2]
  · intro log now u t hls h1 h2
    simp [syncGate, canSync, hls, h1, h2]
  · intro now
    have hls : getLastSyncTime [now - 10 * msPerHour] = some (now - 10 * msPerHour) := rfl
    have h1 : ¬ now - 10 * msPerHour < now - msPerDay := by
      simp only [msPerHour, msPerDay]
      omega
    have h2 : ("alice" : String) ≠ "janwilmake" := by decide
    have hhours : hoursUntilNextSync (now - 10 * msPerHour) now = 14 := by
      unfold hoursUntilNextSync
      have : now - 10 * msPerHour + msPerDay - now = 50400000 := by
        simp only [msPerHour, msPerDay]
        omega
      rw [this]
      rfl
    rw [← hhours]
    simp [syncGate, canSync, hls, h1, h2]
  · intro now
    have hls : getLastSyncTime [now - 25 * msPerHour] = some (now - 25 * msPerHour) := rfl
    have h1 : now - 25 * msPerHour < now - msPerDay := by
      simp only [msPerHour, msPerDay]
      omega
    simp [syncGate, canSync, hls, h1]

/-- C4 witness: the rejection branch at a concrete input (last sync at
time 0, request at 10 hours, user alice): 14 whole hours remain. -/
theorem sync_rate_limit_gate_witness :
    (getLastSyncTime [0] = some 0 ∧ ¬ (0 : Int) < 36000000 - msPerDay ∧
      ("alice" : String) ≠ "janwilmake") ∧
    syncGate [0] 36000000 ("alice")
      = SyncGateDecision.limited (hoursUntilNextSync 0 36000000) 0 :=
  ⟨⟨rfl, by decide, by decide⟩,
   sync_rate_limit_gate.2.1 [0] 36000000 ("alice") 0 rfl (by decide) (by decide)⟩

/-- C10: the caller-supplied tag is interpolated into the LIKE pattern
unescaped, so the filter "a%b" selects a row tagged "aXb" both in
getFollows and in removeTag's row-selection (the row is counted as
touched), even though "a%b" is not a literal substring of "aXb". -/
theorem like_metachar_selection :
    ((getFollows (some ("a%b")) [mkRow ("1") ("a") none (some ("aXb"))]).map Row.username
      = [("a" : String)]) ∧
    ((removeTag ("a%b") [mkRow ("1") ("a") none (some ("aXb"))]).2 = 1) ∧
    substrB ("a%b") ("aXb") = false :=
  ⟨by decide, by decide, by decide⟩

/-- C1 (amended): provided the fetched accounts have pairwise distinct
identifiers, the table after a sync consists exactly of the rows built
by `rowOfFollowing` — so the sync never writes any note or tags value
other than the carried-over one; a handle with no snapshot entry (no
prior row, or prior note and tags both null) gets null note and tags;
a handle with a snapshot entry gets its prior note and tags through
`jsOr`, which preserves every value except the empty string, which
becomes null.  (The frozen claim asserts exact preservation; the
`existing?.note || null` coercion nulls empty strings — see the
counterexample.) -/
theorem sync_preserves_annotations_amended :
    ∀ (now : Int) (sa : String) (resps : List (Except Nat PageData)) (s : Store),
    ((consumedFollowings resps).map Following.id).Nodup →
    ((syncFollows now sa resps s).1.follows
        = (consumedFollowings resps).map (rowOfFollowing (existingLookup s.follows) sa)) ∧
    (∀ f : Following, existingLookup s.follows f.userName = none →
        (rowOfFollowing (existingLookup s.follows) sa f).note = none ∧
        (rowOfFollowing (existingLookup s.follows) sa f).tags = none) ∧
    (∀ (f : Following) (n t : Option String),
        existingLookup s.follows f.userName = some (n, t) →
        (rowOfFollowing (existingLookup s.follows) sa f).note = jsOr n ∧
        (rowOfFollowing (existingLookup s.follows) sa f).tags = jsOr t) ∧
    (∀ v : Option String, v ≠ some ("") → jsOr v = v) := by
  intro now sa resps s hnd
  refine ⟨?_, ?_, ?_, ?_⟩
  · have h := syncFollows_state now sa resps s hnd
    exact congrArg Store.follows h
  · intro f hf
    constructor
    · show jsOr ((existingLookup s.follows f.userName).map Prod.fst |>.getD none) = none
      rw [hf]
      rfl
    · show jsOr ((existingLookup s.follows f.userName).map Prod.snd |>.getD none) = none
      rw [hf]
      rfl
  · intro f n t hf
    constructor
    · show jsOr ((existingLookup s.follows f.userName).map Prod.fst |>.getD none) = jsOr n
      rw [hf]
      rfl
    · show jsOr ((existingLookup s.follows f.userName).map Prod.snd |>.getD none) = jsOr t
      rw [hf]
      rfl
  · intro v hv
    cases v with
    | none => rfl
    | some w =>
      have hw : w ≠ "" := fun h => hv (by rw [h])
      simp [jsOr, hw]

/-- C1 witness: one prior row with a note, one fetched account with a
distinct id; the distinct-ids hypothesis holds and the sync result is
exactly the carried-forward row image. -/
theorem sync_preserves_annotations_witness :
    ((consumedFollowings
        [Except.ok ⟨[mkFollowing ("1") ("a")], false, none⟩]).map Following.id).Nodup ∧
    ((syncFollows 0 ("t") [Except.ok ⟨[mkFollowing ("1") ("a")], false, none⟩]
        ⟨[mkRow ("9") ("a") (some ("keep")) none], []⟩).1.follows
      = (consumedFollowings
          [Except.ok ⟨[mkFollowing ("1") ("a")], false, none⟩]).map
          (rowOfFollowing
            (existingLookup (⟨[mkRow ("9") ("a") (some ("keep")) none], []⟩ : Store).follows)
            ("t"))) :=
  ⟨by decide,
   (sync_preserves_annotations_amended 0 ("t")
      [Except.ok ⟨[mkFollowing ("1") ("a")], false, none⟩]
      ⟨[mkRow ("9") ("a") (some ("keep")) none], []⟩ (by decide)).1⟩

/-- C1 counterexample: a prior row for handle "a" with note = "" (a
non-null note, and non-null tags "x"); "a" appears in the single
fetched page, yet its replacement row carries note = null, not the
prior empty-string note — the `existing?.note || null` coercion
changed the value. -/
theorem sync_preserves_annotations_cex :
    ((⟨[mkRow ("1") ("a") (some ("")) (some ("x"))], []⟩ : Store).follows.map
        (fun r => (r.username, r.note, r.tags))
      = [(("a" : String), some (""), some ("x"))]) ∧
    ((syncFollows 0 ("t") [Except.ok ⟨[mkFollowing ("1") ("a")], false, none⟩]
        ⟨[mkRow ("1") ("a") (some ("")) (some ("x"))], []⟩).1.follows.map
        (fun r => (r.username, r.note, r.tags))
      = [(("a" : String), none, some ("x"))]) :=
  ⟨by decide, by decide⟩

/-- C2 (amended): for a sync run that completes without error and
whose fetched accounts have pairwise distinct identifiers, the
usernames in the follows table after the sync are exactly the
usernames of the accounts in the consumed pages (in order); in
particular every previous row whose username is absent from the fetch
is gone.  (The frozen claim holds only under the distinct-identifier
proviso: `INSERT OR REPLACE` is keyed on user_id, so a repeated id
with a different username drops the earlier username — see the
counterexample.) -/
theorem sync_replaces_table_amended :
    ∀ (now : Int) (sa : String) (resps : List (Except Nat PageData)) (s : Store)
      (r : Nat × Nat),
    ((consumedFollowings resps).map Following.id).Nodup →
    (syncFollows now sa resps s).2 = Except.ok r →
    (syncFollows now sa resps s).1.follows.map Row.username
      = (consumedFollowings resps).map Following.userName := by
  intro now sa resps s r hnd _
  have h := congrArg Store.follows (syncFollows_state now sa resps s hnd)
  rw [h, List.map_map]
  rfl

/-- C2 witness: two fetched accounts with distinct ids against a store
holding an unrelated row; the run succeeds and the table's usernames
equal the fetched usernames. -/
theorem sync_replaces_table_witness :
    ((consumedFollowings
        [Except.ok ⟨[mkFollowing ("1") ("a"), mkFollowing ("2") ("b")], false, none⟩]).map
        Following.id).Nodup ∧
    ((syncFollows 0 ("t")
        [Except.ok ⟨[mkFollowing ("1") ("a"), mkFollowing ("2") ("b")], false, none⟩]
        ⟨[mkRow ("9") ("z") none none], []⟩).2 = Except.ok (2, 1)) ∧
    ((syncFollows 0 ("t")
        [Except.ok ⟨[mkFollowing ("1") ("a"), mkFollowing ("2") ("b")], false, none⟩]
        ⟨[mkRow ("9") ("z") none none], []⟩).1.follows.map Row.username
      = (consumedFollowings
          [Except.ok ⟨[mkFollowing ("1") ("a"), mkFollowing ("2") ("b")], false, none⟩]).map
          Following.userName) :=
  ⟨by decide, by rfl,
   sync_replaces_table_amended 0 ("t")
     [Except.ok ⟨[mkFollowing ("1") ("a"), mkFollowing ("2") ("b")], false, none⟩]
     ⟨[mkRow ("9") ("z") none none], []⟩ (2, 1) (by decide) (by rfl)⟩

/-- C2 counterexample: the upstream returns two accounts sharing id
"1" with usernames "a" then "b"; the run completes without error, yet
the table afterwards holds only username "b" — "a" is in the fetched
pages but absent from the table, refuting the claimed set equality. -/
theorem sync_replaces_table_cex :
    ((syncFollows 0 ("t")
        [Except.ok ⟨[mkFollowing ("1") ("a"), mkFollowing ("1") ("b")], false, none⟩]
        ⟨[], []⟩).2 = Except.ok (2, 1)) ∧
    ((consumedFollowings
        [Except.ok ⟨[mkFollowing ("1") ("a"), mkFollowing ("1") ("b")], false, none⟩]).map
        Following.userName = [("a" : String), ("b" : String)]) ∧
    ((syncFollows 0 ("t")
        [Except.ok ⟨[mkFollowing ("1") ("a"), mkFollowing ("1") ("b")], false, none⟩]
        ⟨[], []⟩).1.follows.map Row.username = [("b" : String)]) :=
  ⟨by rfl, by decide, by decide⟩

/-- C5 (amended): when a page fetch returns a non-success status after
a run of pages that all continued the loop, the procedure raises the
fetch-failure error and the post-error state contains the SyncEvent
appended at the start of the run (the rate-limit window is consumed by
the failed run) — both unconditionally; and, provided the pre-failure
accounts have pairwise distinct identifiers, the post-error table is
exactly the rows inserted from the pages fetched before the failing
one (no rollback of partial writes).  (Without the
distinct-identifier proviso a later `INSERT OR REPLACE` can displace
an earlier inserted row — see the counterexample.) -/
theorem sync_failure_partial_state :
    ∀ (now : Int) (sa : String) (ds : List PageData) (st : Nat)
      (rest : List (Except Nat PageData)) (s : Store),
    (∀ d ∈ ds, continuesAfterPage d = true) →
    ((syncFollows now sa (ds.map Except.ok ++ Except.error st :: rest) s).2
        = Except.error ("Failed to fetch follows: " ++ toString st)) ∧
    ((syncFollows now sa (ds.map Except.ok ++ Except.error st :: rest) s).1.sync_log
        = s.sync_log ++ [now]) ∧
    ((((ds.map PageData.followings).flatten).map Following.id).Nodup →
      (syncFollows now sa (ds.map Except.ok ++ Except.error st :: rest) s).1.follows
        = ((ds.map PageData.followings).flatten).map
            (rowOfFollowing (existingLookup s.follows) sa)) := by
  intro now sa ds st rest s hcont
  have hcons := consumed_of_continuing st rest ds hcont
  refine ⟨?_, ?_, ?_⟩
  · show (syncLoop (existingLookup s.follows) sa
        (ds.map Except.ok ++ Except.error st :: rest)
        ⟨[], s.sync_log ++ [now]⟩ 0 0).2
      = Except.error ("Failed to fetch follows: " ++ toString st)
    exact syncLoop_error_result (existingLookup s.follows) sa st rest ds _ 0 0 hcont
  · show (syncLoop (existingLookup s.follows) sa
        (ds.map Except.ok ++ Except.error st :: rest)
        ⟨[], s.sync_log ++ [now]⟩ 0 0).1.sync_log = s.sync_log ++ [now]
    exact syncLoop_log (existingLookup s.follows) sa
      (ds.map Except.ok ++ Except.error st :: rest) ⟨[], s.sync_log ++ [now]⟩ 0 0
  · intro hnd
    have hnd2 : ((consumedFollowings
        (ds.map Except.ok ++ Except.error st :: rest)).map Following.id).Nodup := by
      rw [hcons]
      exact hnd
    have hstate := syncFollows_state now sa
      (ds.map Except.ok ++ Except.error st :: rest) s hnd2
    have := congrArg Store.follows hstate
    rw [hcons] at this
    simpa using this

/-- C5 witness: one successful continuing page, then a 500; the error
is raised, the SyncEvent stands, and the table is exactly the first
page's row image. -/
theorem sync_failure_partial_state_witness :
    (∀ d ∈ [(⟨[mkFollowing ("1") ("a")], true, some ("c")⟩ : PageData)],
        continuesAfterPage d = true) ∧
    ((((([(⟨[mkFollowing ("1") ("a")], true, some ("c")⟩ : PageData)]).map
        PageData.followings).flatten).map Following.id).Nodup) ∧
    ((syncFollows 7 ("t")
        (([(⟨[mkFollowing ("1") ("a")], true, some ("c")⟩ : PageData)]).map Except.ok
          ++ Except.error 500 :: []) ⟨[], [3]⟩).2
      = Except.error ("Failed to fetch follows: " ++ toString 500)) ∧
    ((syncFollows 7 ("t")
        (([(⟨[mkFollowing ("1") ("a")], true, some ("c")⟩ : PageData)]).map Except.ok
          ++ Except.error 500 :: []) ⟨[], [3]⟩).1.sync_log = [3] ++ [7]) ∧
    ((syncFollows 7 ("t")
        (([(⟨[mkFollowing ("1") ("a")], true, some ("c")⟩ : PageData)]).map Except.ok
          ++ Except.error 500 :: []) ⟨[], [3]⟩).1.follows
      = ((([(⟨[mkFollowing ("1") ("a")], true, some ("c")⟩ : PageData)]).map
          PageData.followings).flatten).map
          (rowOfFollowing (existingLookup (⟨[], [3]⟩ : Store).follows) ("t"))) :=
  ⟨by decide, by decide,
   (sync_failure_partial_state 7 ("t")
     [(⟨[mkFollowing ("1") ("a")], true, some ("c")⟩ : PageData)] 500 []
     ⟨[], [3]⟩ (by decide)).1,
   (sync_failure_partial_state 7 ("t")
     [(⟨[mkFollowing ("1") ("a")], true, some ("c")⟩ : PageData)] 500 []
     ⟨[], [3]⟩ (by decide)).2.1,
   (sync_failure_partial_state 7 ("t")
     [(⟨[mkFollowing ("1") ("a")], true, some ("c")⟩ : PageData)] 500 []
     ⟨[], [3]⟩ (by decide)).2.2 (by decide)⟩

/-- C6 (amended): for every store state whose usernames are pairwise
distinct, removeTag rewrites each selected row (tags non-null,
non-empty, LIKE-matching the tag) in place from its own tags, leaves
every other row untouched — in particular every row whose tags
contain the tag nowhere case-insensitively — and returns the number
of selected rows; the rewrite tokenizes on commas, trims each token,
drops tokens equal to the given tag case-insensitively, and rejoins
the remainder with comma-space, null when no token remains.
Concretely, on such a store removeTag("vip") turns tags "VIP, friend"
into "friend", "vip" into null, and leaves a row tagged only "friend"
untouched and uncounted (count 2).  (The frozen claim's universal over
all store states fails when two rows share a username, because
`UPDATE ... WHERE username = ?` writes every row with that username —
see the counterexample.) -/
theorem remove_tag_behavior :
    (∀ (tag : String) (F : List Row), (F.map Row.username).Nodup →
      removeTag tag F =
        (F.map (fun r => if removeTagSelected tag r
            then { r with tags := removeTagFromTags tag (r.tags.getD ("")) } else r),
         (F.filter (removeTagSelected tag)).length)) ∧
    ((removeTag ("vip")
        [mkRow ("1") ("u1") none (some ("VIP, friend")),
         mkRow ("2") ("u2") none (some ("vip")),
         mkRow ("3") ("u3") none (some ("friend"))]).1
      = [mkRow ("1") ("u1") none (some ("friend")),
         mkRow ("2") ("u2") none none,
         mkRow ("3") ("u3") none (some ("friend"))]) ∧
    ((removeTag ("vip")
        [mkRow ("1") ("u1") none (some ("VIP, friend")),
         mkRow ("2") ("u2") none (some ("vip")),
         mkRow ("3") ("u3") none (some ("friend"))]).2 = 2) ∧
    (∀ tagR tags : String, removeTagFromTags tagR tags =
      (if (((jsSplitComma tags).map jsTrim).filter
            (fun tok => lowerStr tok ≠ lowerStr tagR)).isEmpty then none
       else some (joinCommaSpace
            (((jsSplitComma tags).map jsTrim).filter
              (fun tok => lowerStr tok ≠ lowerStr tagR))))) := by
  refine ⟨fun tag F hU => removeTag_spec_unique tag F hU, by decide, by decide, ?_⟩
  intro tagR tags
  unfold removeTagFromTags
  cases h : ((jsSplitComma tags).map jsTrim).filter
      (fun tok => lowerStr tok ≠ lowerStr tagR) with
  | nil => simp [h]
  | cons a l => simp [h]

/-- C6 witness: the three-row store has pairwise distinct usernames,
and instantiating the general statement there evaluates to the
expected rewritten table and count 2. -/
theorem remove_tag_behavior_witness :
    ([mkRow ("1") ("u1") none (some ("VIP, friend")),
      mkRow ("2") ("u2") none (some ("vip")),
      mkRow ("3") ("u3") none (some ("friend"))].map Row.username).Nodup ∧
    removeTag ("vip")
        [mkRow ("1") ("u1") none (some ("VIP, friend")),
         mkRow ("2") ("u2") none (some ("vip")),
         mkRow ("3") ("u3") none (some ("friend"))]
      = ([mkRow ("1") ("u1") none (some ("friend")),
          mkRow ("2") ("u2") none none,
          mkRow ("3") ("u3") none (some ("friend"))], 2) :=
  ⟨by decide,
   (remove_tag_behavior.1 ("vip")
       [mkRow ("1") ("u1") none (some ("VIP, friend")),
        mkRow ("2") ("u2") none (some ("vip")),
        mkRow ("3") ("u3") none (some ("friend"))] (by decide)).trans (by decide)⟩

/-- C6 counterexample: with duplicate usernames the claim's universal
fails.  In the store [(id 1, "u", tags "VIP, friend"), (id 2, "u",
tags "vip")], removeTag("vip") leaves the first row with tags null,
not "friend": the second selected snapshot row's `UPDATE ... WHERE
username = ?` overwrites every row with username "u".  And in
[(id 1, "u", tags "vip"), (id 2, "u", tags "friend")], the second
row — whose tags contain "vip" nowhere case-insensitively — is
overwritten to null rather than left untouched. -/
theorem remove_tag_behavior_cex :
    (([mkRow ("1") ("u") none (some ("VIP, friend")),
       mkRow ("2") ("u") none (some ("vip"))].map Row.tags)
      = [some ("VIP, friend"), some ("vip")]) ∧
    ((removeTag ("vip")
        [mkRow ("1") ("u") none (some ("VIP, friend")),
         mkRow ("2") ("u") none (some ("vip"))]).1.map Row.tags = [none, none]) ∧
    ((removeTag ("vip")
        [mkRow ("1") ("u") none (some ("vip")),
         mkRow ("2") ("u") none (some ("friend"))]).1.map Row.tags = [none, none]) ∧
    (substrB ("vip") (lowerStr ("friend")) = false) :=
  ⟨by decide, by decide, by decide, by decide⟩

/-- C7: updateContact overwrites exactly the supplied fields of every
row matching the handle (an undefined field stays unchanged), returns
the "No updates provided" error without touching the store when
neither field is supplied, and otherwise reports updated = true
exactly when some row has the handle. -/
theorem update_contact_behavior :
    (∀ (u : String) (F : List Row),
      updateContact u none none F = (F, ⟨false, some ("No updates provided")⟩)) ∧
    (∀ (u : String) (n t : Option (Option String)) (F : List Row),
      n.isSome ∨ t.isSome →
      updateContact u n t F =
        (F.map (fun r => if r.username == u
            then { r with note := n.getD r.note, tags := t.getD r.tags } else r),
         ⟨F.any (fun r => r.username == u), none⟩)) :=
  ⟨fun u F => updateContact_none_none u F,
   fun u n t F h => updateContact_supplied u n t F h⟩

/-- C7 witness: supplying only a note to a matching row rewrites just
the note, keeps the tags, and reports updated = true. -/
theorem update_contact_behavior_witness :
    ((some (some ("x")) : Option (Option String)).isSome
      ∨ (none : Option (Option String)).isSome) ∧
    updateContact ("a") (some (some ("x"))) none
        [mkRow ("1") ("a") (some ("old")) (some ("t"))]
      = ([mkRow ("1") ("a") (some ("x")) (some ("t"))], ⟨true, none⟩) :=
  ⟨Or.inl rfl,
   (update_contact_behavior.2 ("a") (some (some ("x"))) none
       [mkRow ("1") ("a") (some ("old")) (some ("t"))] (Or.inl rfl)).trans (by decide)⟩

/-- C8: the /contact/ handler reads query parameters with
searchParams.get, which yields null (not undefined) when absent, so
both fields are always supplied to updateContact: omitting both
parameters nulls note and tags on every matching row and returns
updated rather than the "No updates provided" error, and supplying
only one parameter nulls the other field. -/
theorem contact_endpoint_null_params :
    (∀ (u : String) (F : List Row),
      contactEndpoint u none none F =
        (F.map (fun r => if r.username == u
            then { r with note := none, tags := none } else r),
         ⟨F.any (fun r => r.username == u), none⟩)) ∧
    (∀ (u v : String) (F : List Row),
      contactEndpoint u (some v) none F =
        (F.map (fun r => if r.username == u
            then { r with note := some v, tags := none } else r),
         ⟨F.any (fun r => r.username == u), none⟩)) ∧
    (∀ (u v : String) (F : List Row),
      contactEndpoint u none (some v) F =
        (F.map (fun r => if r.username == u
            then { r with note := none, tags := some v } else r),
         ⟨F.any (fun r => r.username == u), none⟩)) ∧
    (contactEndpoint ("a") none none [mkRow ("1") ("a") (some ("n")) (some ("t"))]
      = ([mkRow ("1") ("a") none none], ⟨true, none⟩)) := by
  refine ⟨?_, ?_, ?_, by decide⟩
  · intro u F
    exact updateContact_supplied u (some none) (some none) F (Or.inl rfl)
  · intro u v F
    exact updateContact_supplied u (some (some v)) (some none) F (Or.inl rfl)
  · intro u v F
    exact updateContact_supplied u (some none) (some (some v)) F (Or.inl rfl)

/-- C9: updateContact, updateBulk and removeTag change only the note
and tags columns: erasing those two columns from every row gives the
same list before and after each operation, so the remaining columns
(user_id, username, name, profile_image_url, description,
followers_count, following_count, verified_type, is_blue_verified,
location, created_at, synced_at), the row count, the row order and
hence the set of usernames are all unchanged — no row is inserted or
deleted. -/
theorem mutations_frame :
    (∀ (u : String) (n t : Option (Option String)) (F : List Row),
      ((updateContact u n t F).1).map stripAnn = F.map stripAnn) ∧
    (∀ (items : List BulkItem) (F : List Row),
      ((updateBulk items F).1).map stripAnn = F.map stripAnn) ∧
    (∀ (tg : String) (F : List Row),
      ((removeTag tg F).1).map stripAnn = F.map stripAnn) := by
  refine ⟨?_, updateBulk_strip, removeTag_strip⟩
  intro u n t F
  have key : ∀ (n t : Option (Option String)), n.isSome ∨ t.isSome →
      ((updateContact u n t F).1).map stripAnn = F.map stripAnn := by
    intro n t h
    rw [updateContact_supplied u n t F h]
    exact map_strip_of_pointwise _ F (fun r => by
      by_cases hr : r.username == u
      · simp only [hr, if_true]
        rfl
      · simp [hr])
  cases n with
  | none =>
    cases t with
    | none => rfl
    | some w => exact key none (some w) (Or.inr rfl)
  | some v => exact key (some v) t (Or.inl rfl)

/-- C5 counterexample: the single pre-failure page carries two
accounts with the same id "1" (usernames "a" then "b") and continues;
the next fetch returns a 500.  The error is raised and the SyncEvent
stands, but the row inserted for "a" from the pre-failure page has
been displaced by the `INSERT OR REPLACE` for "b", so the state does
not contain every row inserted before the failure. -/
theorem sync_failure_partial_state_cex :
    ((syncFollows 0 ("t")
        [Except.ok ⟨[mkFollowing ("1") ("a"), mkFollowing ("1") ("b")], true, some ("c")⟩,
         Except.error 500] ⟨[], []⟩).2
      = Except.error ("Failed to fetch follows: " ++ toString 500)) ∧
    ((⟨[mkFollowing ("1") ("a"), mkFollowing ("1") ("b")], true, some ("c")⟩
        : PageData).followings.map Following.userName = [("a" : String), ("b" : String)]) ∧
    ((syncFollows 0 ("t")
        [Except.ok ⟨[mkFollowing ("1") ("a"), mkFollowing ("1") ("b")], true, some ("c")⟩,
         Except.error 500] ⟨[], []⟩).1.follows.map Row.username = [("b" : String)]) ∧
    ((syncFollows 0 ("t")
        [Except.ok ⟨[mkFollowing ("1") ("a"), mkFollowing ("1") ("b")], true, some ("c")⟩,
         Except.error 500] ⟨[], []⟩).1.sync_log = [(0 : Int)]) :=
  ⟨by rfl, by decide, by decide, by decide⟩

end XCrm
